import Mathlib

/-!
Verification of the core logic of the Expense-reader repository.

This file is a shallow embedding, in Lean 4, of the receipt-to-report pipeline:

* the currency/markup calculator inlined in `ExpenseDatabase.update_receipt`,
  `ExpenseDatabase.add_receipt` and `ExpenseDatabase.update_all_fx_rates`
  (src/app/database.py);
* the filename canonicalizer `sanitize_filename` / `format_receipt_filename`
  (src/core/file_utils.py);
* the deduplication resolver (`get_unique_filename` in src/core/file_utils.py and
  the inline dedup loop of `update_receipt`);
* the receipt store operations `add_receipt`, `update_receipt`,
  `duplicate_receipt_with_cc_split`, `update_all_fx_rates` and the
  `/divide-cc` route guard `divide_between_cost_centers` (src/app/main.py).

Python floats are modelled as rationals (`ℚ`), SQL `NULL` / Python `None` as
`Option`, SQL timestamps as an abstract `Nat` tick passed in by the caller, and
the sqlite `receipts` table as a list of records together with the
`AUTOINCREMENT` counter and the two settings keys the code ever uses.
-/

/-- Python truthiness of an optional numeric value: `None` and `0` are falsy,
every other number (including negative ones) is truthy. -/
def pyTruthyQ : Option ℚ → Bool
  | none => false
  | some x => x != 0

/-- Python `x or d` for an optional number `x`: yields the default `d` when `x`
is `None` or `0`, and `x` itself otherwise. -/
def pyOrQ : Option ℚ → ℚ → ℚ
  | none, d => d
  | some x, d => if x = 0 then d else x

/-- Python truthiness of an optional string: `None` and `""` are falsy. -/
def pyTruthyS : Option String → Bool
  | none => false
  | some s => s != ""

/-- The reporting-amount computation inlined in `ExpenseDatabase.update_receipt`
(src/app/database.py, lines 179-185):

    amount_usd = None
    if total_amount and fx_rate:
        amount_usd = total_amount / fx_rate
        amount_usd = amount_usd * (1 + (markup_percent or 2.5) / 100)
-/
def calc_amount_usd (total_amount fx_rate markup_percent : Option ℚ) : Option ℚ :=
  if pyTruthyQ total_amount && pyTruthyQ fx_rate then
    some (total_amount.getD 0 / fx_rate.getD 0 * (1 + pyOrQ markup_percent (5/2) / 100))
  else
    none

/-- The NFKD decomposition used by `sanitize_filename`
(`unicodedata.normalize('NFKD', text)`).  `unicodedata` is an external library;
its decomposition table is modelled here restricted to the Latin-1 accented
letters: each maps to its base letter followed by a combining mark (the mark is
non-ASCII and is dropped by the subsequent ASCII step).  Characters outside the
table decompose to themselves. -/
def nfkdTable : List (Char × List Char) :=
  [('á', ['a', Char.ofNat 0x0301]), ('à', ['a', Char.ofNat 0x0300]),
   ('â', ['a', Char.ofNat 0x0302]), ('ä', ['a', Char.ofNat 0x0308]),
   ('ã', ['a', Char.ofNat 0x0303]), ('å', ['a', Char.ofNat 0x030A]),
   ('é', ['e', Char.ofNat 0x0301]), ('è', ['e', Char.ofNat 0x0300]),
   ('ê', ['e', Char.ofNat 0x0302]), ('ë', ['e', Char.ofNat 0x0308]),
   ('í', ['i', Char.ofNat 0x0301]), ('ì', ['i', Char.ofNat 0x0300]),
   ('î', ['i', Char.ofNat 0x0302]), ('ï', ['i', Char.ofNat 0x0308]),
   ('ó', ['o', Char.ofNat 0x0301]), ('ò', ['o', Char.ofNat 0x0300]),
   ('ô', ['o', Char.ofNat 0x0302]), ('ö', ['o', Char.ofNat 0x0308]),
   ('õ', ['o', Char.ofNat 0x0303]),
   ('ú', ['u', Char.ofNat 0x0301]), ('ù', ['u', Char.ofNat 0x0300]),
   ('û', ['u', Char.ofNat 0x0302]), ('ü', ['u', Char.ofNat 0x0308]),
   ('ñ', ['n', Char.ofNat 0x0303]), ('ç', ['c', Char.ofNat 0x0327]),
   ('ý', ['y', Char.ofNat 0x0301]),
   ('Á', ['A', Char.ofNat 0x0301]), ('À', ['A', Char.ofNat 0x0300]),
   ('Â', ['A', Char.ofNat 0x0302]), ('Ä', ['A', Char.ofNat 0x0308]),
   ('Ã', ['A', Char.ofNat 0x0303]), ('Å', ['A', Char.ofNat 0x030A]),
   ('É', ['E', Char.ofNat 0x0301]), ('È', ['E', Char.ofNat 0x0300]),
   ('Ê', ['E', Char.ofNat 0x0302]), ('Ë', ['E', Char.ofNat 0x0308]),
   ('Í', ['I', Char.ofNat 0x0301]), ('Ì', ['I', Char.ofNat 0x0300]),
   ('Î', ['I', Char.ofNat 0x0302]), ('Ï', ['I', Char.ofNat 0x0308]),
   ('Ó', ['O', Char.ofNat 0x0301]), ('Ò', ['O', Char.ofNat 0x0300]),
   ('Ô', ['O', Char.ofNat 0x0302]), ('Ö', ['O', Char.ofNat 0x0308]),
   ('Õ', ['O', Char.ofNat 0x0303]),
   ('Ú', ['U', Char.ofNat 0x0301]), ('Ù', ['U', Char.ofNat 0x0300]),
   ('Û', ['U', Char.ofNat 0x0302]), ('Ü', ['U', Char.ofNat 0x0308]),
   ('Ñ', ['N', Char.ofNat 0x0303]), ('Ç', ['C', Char.ofNat 0x0327])]

/-- NFKD decomposition of one character (table lookup, identity outside). -/
def nfkdChar (c : Char) : List Char :=
  match nfkdTable.find? (fun p => p.1 == c) with
  | some p => p.2
  | none => [c]

/-- `encode('ASCII', 'ignore')` keeps exactly the code points below 128. -/
def isAsciiChar (c : Char) : Bool := c.toNat < 128

/-- Python regex `\w` on an ASCII string: `[A-Za-z0-9_]`. -/
def isWordChar (c : Char) : Bool := c.isAlphanum || c == '_'

/-- Python regex `\s` on an ASCII string. -/
def isPySpace (c : Char) : Bool :=
  c == ' ' || c == '\t' || c == '\n' || c == '\r' ||
    c == Char.ofNat 11 || c == Char.ofNat 12

/-- A character eaten by `re.sub(r'[-\s]+', '_', text)`. -/
def isCollapsible (c : Char) : Bool := c == '-' || isPySpace c

/-- A character kept by `re.sub(r'[^\w\s-]', '', text)`. -/
def keepChar (c : Char) : Bool := isWordChar c || isPySpace c || c == '-'

/-- Replace every maximal run of hyphens/whitespace by a single underscore
(`re.sub(r'[-\s]+', '_', text)`); the boolean records whether we are inside a
run whose underscore has already been emitted. -/
def collapseAux : Bool → List Char → List Char
  | _, [] => []
  | inRun, c :: rest =>
    if isCollapsible c then
      if inRun then collapseAux true rest
      else '_' :: collapseAux true rest
    else
      c :: collapseAux false rest

/-- `re.sub(r'[-\s]+', '_', text)`. -/
def collapseRuns (l : List Char) : List Char := collapseAux false l

/-- Python `text.strip('_')`: drop leading and trailing underscores. -/
def stripUnderscores (l : List Char) : List Char :=
  ((l.dropWhile (· == '_')).reverse.dropWhile (· == '_')).reverse

/-- The character-level pipeline of `sanitize_filename`
(src/core/file_utils.py, lines 14-39): NFKD-decompose, drop non-ASCII,
drop characters outside `[\w\s-]`, collapse `[-\s]+` runs to `_`,
strip leading/trailing `_`. -/
def sanitizeList (l : List Char) : List Char :=
  stripUnderscores (collapseRuns (((l.map nfkdChar).flatten.filter isAsciiChar).filter keepChar))

/-- `sanitize_filename` (src/core/file_utils.py, lines 14-39).  The falsy
inputs `None` and `""` and an empty sanitized result all yield `"Unknown"`. -/
def sanitize_filename (text : Option String) : String :=
  match text with
  | none => "Unknown"
  | some t =>
    if t = "" then "Unknown"
    else
      let r := sanitizeList t.data
      if r = [] then "Unknown" else String.mk r

/-- `format_receipt_filename` (src/core/file_utils.py, lines 42-66): `None`
when either input is falsy, otherwise `date[:7].replace('-', '_')` followed by
`'_'` and the sanitized restaurant name.  The date string is not otherwise
validated. -/
def format_receipt_filename (date restaurant_name : Option String) : Option String :=
  if !pyTruthyS date || !pyTruthyS restaurant_name then none
  else
    let d := date.getD ""
    let year_month := String.mk ((d.data.take 7).map (fun c => if c == '-' then '_' else c))
    some (year_month ++ "_" ++ sanitize_filename restaurant_name)

/-- Largest length of any string in the list (`0` for the empty list). -/
def maxLen (l : List String) : Nat := l.foldr (fun s acc => max s.length acc) 0

/-- The candidate name `f"{base_name}_{counter}{extension}"` tried by both
deduplication loops (`get_unique_filename` and the inline loop of
`update_receipt`). -/
def mkNumberedName (base : String) (k : Nat) (ext : String) : String :=
  base ++ "_" ++ Nat.repr k ++ ext

/-- A number of at least `e + 1` decimal digits has a representation of at
least `e + 1` characters (termination fact for the deduplication search). -/
def toDigitsCore_length_lower :
    ∀ (e f n : Nat), 10 ^ e ≤ n → e < f → e + 1 ≤ (Nat.toDigitsCore 10 f n []).length := by
  intro e
  induction e with
  | zero =>
    intro f n hn hf
    match f, hf with
    | f + 1, _ =>
      by_cases h10 : n / 10 = 0
      · simp [Nat.toDigitsCore, h10]
      · simp only [Nat.toDigitsCore, h10, if_false]
        rw [Nat.toDigitsCore_lens_eq]
        omega
  | succ e ih =>
    intro f n hn hf
    match f, hf with
    | f + 1, hf =>
      have hdiv : 10 ^ e ≤ n / 10 := (Nat.le_div_iff_mul_le (by norm_num)).mpr (by
        rw [← pow_succ]; exact hn)
      have hpos : 1 ≤ 10 ^ e := Nat.one_le_pow e 10 (by norm_num)
      have hne : ¬ n / 10 = 0 := by omega
      simp only [Nat.toDigitsCore, hne, if_false]
      rw [Nat.toDigitsCore_lens_eq]
      have := ih f (n / 10) hdiv (Nat.lt_of_succ_lt_succ hf)
      omega

/-- Lower bound for the length of `Nat.repr`. -/
def repr_length_lower (e n : Nat) (h : 10 ^ e ≤ n) : e + 1 ≤ (Nat.repr n).length := by
  have hen : e < n + 1 := by
    have h1 : e < 10 ^ e := Nat.lt_pow_self (by norm_num) e
    omega
  show e + 1 ≤ (Nat.toDigitsCore 10 (n + 1) n []).length
  exact toDigitsCore_length_lower e (n + 1) n h hen

/-- Every member of a list is at most `maxLen` long. -/
def le_maxLen : ∀ {l : List String} {s : String}, s ∈ l → s.length ≤ maxLen l := by
  intro l
  induction l with
  | nil => intro s h; cases h
  | cons a t ih =>
    intro s h
    rcases List.mem_cons.mp h with rfl | h
    · exact le_max_left _ _
    · exact le_trans (ih h) (le_max_right _ _)

/-- Some numbered candidate is always free: a candidate built from a
sufficiently large counter is longer than every taken name.  This is the
termination argument for the `while` loops of both deduplication sites. -/
def free_suffix_exists (base ext : String) (taken : List String) :
    ∃ j : Nat, mkNumberedName base (2 + j) ext ∉ taken := by
  refine ⟨10 ^ (maxLen taken + 1) - 2, fun hmem => ?_⟩
  have h2 : 2 ≤ 10 ^ (maxLen taken + 1) := by
    calc 2 ≤ 10 ^ 1 := by norm_num
    _ ≤ 10 ^ (maxLen taken + 1) := Nat.pow_le_pow_right (by norm_num) (by omega)
  rw [show 2 + (10 ^ (maxLen taken + 1) - 2) = 10 ^ (maxLen taken + 1) from by omega] at hmem
  have h1 : (mkNumberedName base (10 ^ (maxLen taken + 1)) ext).length ≤ maxLen taken :=
    le_maxLen hmem
  have h3 : maxLen taken + 2 ≤ (Nat.repr (10 ^ (maxLen taken + 1))).length :=
    repr_length_lower (maxLen taken + 1) _ (le_refl _)
  have h4 : (Nat.repr (10 ^ (maxLen taken + 1))).length
      ≤ (mkNumberedName base (10 ^ (maxLen taken + 1)) ext).length := by
    unfold mkNumberedName
    rw [String.length_append, String.length_append, String.length_append]
    omega
  omega

/-- `get_unique_filename` (src/core/file_utils.py, lines 92-117) and,
with empty extension, the inline dedup loop of `update_receipt`
(src/app/database.py, lines 196-203): return `base_name ++ extension` if free,
otherwise try `_2`, `_3`, … and return the first candidate absent from
`existing`.  The folder contents / stored display names the loops probe are
modelled as the list `existing`; the first free candidate is the one with the
least counter, here obtained by `Nat.find`. -/
def get_unique_filename (existing : List String) (base_name extension : String) : String :=
  if base_name ++ extension ∈ existing then
    mkNumberedName base_name
      (2 + Nat.find (free_suffix_exists base_name extension existing)) extension
  else
    base_name ++ extension

/-- Does `pat` lead the list `l`? (`str.startswith` at the current scan
position inside Python's `str.replace`.) -/
def leadsWith : List Char → List Char → Bool
  | [], _ => true
  | _ :: _, [] => false
  | p :: ps, c :: cs => p == c && leadsWith ps cs

/-- Python `s.replace(pat, rep)` on character lists: replace occurrences of
`pat` left to right, non-overlapping.  (For the empty pattern, which the code
never passes, this is the identity.) -/
def replaceAllList (pat rep : List Char) : List Char → List Char
  | [] => []
  | c :: rest =>
    if h : leadsWith pat (c :: rest) = true ∧ pat.length ≠ 0 then
      rep ++ replaceAllList pat rep ((c :: rest).drop pat.length)
    else
      c :: replaceAllList pat rep rest
termination_by l => l.length
decreasing_by
  · simp only [List.length_drop, List.length_cons]
    omega
  · simp only [List.length_cons]
    omega

/-- Python `s.replace(pat, rep)` (used as `row[0].replace('.pdf', '')`). -/
def replaceAll (s pat rep : String) : String :=
  String.mk (replaceAllList pat.data rep.data s.data)

/-- One row of the sqlite `receipts` table (src/app/database.py, lines 17-38
and the `display_filename` migration), with `NULL`-able columns as `Option`. -/
structure Receipt where
  id : Nat
  filename : String
  file_path : String
  ocr_text : Option String
  restaurant_name : Option String
  date : Option String
  total_amount : Option ℚ
  cuenta_contable : Option String
  pais : Option String
  cc : Option String
  fx_rate : Option ℚ
  markup_percent : Option ℚ
  amount_mxn : Option ℚ
  reembolso : Option String
  detalle : Option String
  display_filename : Option String
  reviewed : Bool
  created_at : Nat
  updated_at : Nat
deriving DecidableEq

/-- The persistent store: the `receipts` table (with its `AUTOINCREMENT`
counter) and the two `settings` keys the code uses
(`default_fx_rate`, `default_markup_percent`, stored here as parsed numbers
since `get_default_setting` reads them back through `float`). -/
structure DB where
  receipts : List Receipt
  next_id : Nat
  default_fx_rate : Option ℚ
  default_markup_percent : Option ℚ
deriving DecidableEq

/-- `ExpenseDatabase.add_receipt` (src/app/database.py, lines 72-98): reads the
process-wide defaults (falling back to `20.0` and `2.5`), computes an initial
reporting amount for a supplied positive local amount, and inserts an
unreviewed row; columns absent from the INSERT get their schema defaults. -/
def add_receipt (db : DB) (filename file_path : String)
    (ocr_text restaurant_name date : Option String) (total_amount : Option ℚ)
    (now : Nat) : Nat × DB :=
  let default_fx_rate := db.default_fx_rate.getD 20
  let default_markup := db.default_markup_percent.getD (5/2)
  let amount_usd : Option ℚ :=
    match total_amount with
    | some a =>
      if a ≠ 0 ∧ 0 < a then some (a / default_fx_rate * (1 + default_markup / 100)) else none
    | none => none
  let r : Receipt :=
    { id := db.next_id, filename := filename, file_path := file_path, ocr_text := ocr_text,
      restaurant_name := restaurant_name, date := date, total_amount := total_amount,
      cuenta_contable := some "Comidas con Clientes", pais := some "MX",
      cc := some "Alternativos", fx_rate := some default_fx_rate,
      markup_percent := some default_markup, amount_mxn := amount_usd, reembolso := none,
      detalle := none, display_filename := none, reviewed := false, created_at := now,
      updated_at := now }
  (db.next_id, { db with receipts := db.receipts ++ [r], next_id := db.next_id + 1 })

/-- The set probed by `update_receipt`'s dedup query (lines 192-194): display
filenames of reviewed receipts other than the one being written, each with
`.pdf` removed via `replace`, skipping `NULL`/empty values. -/
def existing_display_names (db : DB) (receipt_id : Nat) : List String :=
  (db.receipts.filter (fun r => r.id != receipt_id && r.reviewed)).filterMap
    (fun r => match r.display_filename with
      | some s => if s ≠ "" then some (replaceAll s ".pdf" "") else none
      | none => none)

/-- The display-filename computation of `update_receipt` (lines 187-203):
`None` unless both date and restaurant name are truthy and format succeeds with
a truthy name; otherwise the deduplicated canonical name with `.pdf`
appended. -/
def compute_display_filename (db : DB) (receipt_id : Nat)
    (restaurant_name date : Option String) : Option String :=
  if pyTruthyS date && pyTruthyS restaurant_name then
    match format_receipt_filename date restaurant_name with
    | some formatted =>
      if formatted ≠ "" then
        some (get_unique_filename (existing_display_names db receipt_id) formatted "" ++ ".pdf")
      else none
    | none => none
  else none

/-- `ExpenseDatabase.update_receipt` (src/app/database.py, lines 173-214): a
full-row UPDATE of the matching receipt — every listed column is set from the
arguments (or the computed reporting amount / display filename), `reviewed`
becomes true and `updated_at` is set to the current timestamp.  `pais`,
`filename`, `file_path`, `ocr_text` and `created_at` are not in the SET list
and keep their stored values. -/
def update_receipt (db : DB) (receipt_id : Nat) (restaurant_name date : Option String)
    (total_amount : Option ℚ) (cuenta_contable cc : Option String)
    (fx_rate markup_percent : Option ℚ) (reembolso detalle : Option String)
    (now : Nat) : DB :=
  let amount_usd := calc_amount_usd total_amount fx_rate markup_percent
  let display_filename := compute_display_filename db receipt_id restaurant_name date
  { db with
    receipts := db.receipts.map (fun r =>
      if r.id = receipt_id then
        { r with
          restaurant_name := restaurant_name, date := date,
          total_amount := total_amount, cuenta_contable := cuenta_contable, cc := cc,
          fx_rate := fx_rate, markup_percent := markup_percent, amount_mxn := amount_usd,
          reembolso := reembolso, detalle := detalle, display_filename := display_filename,
          reviewed := true, updated_at := now }
      else r) }

/-- One INSERT of the cost-center split loop (src/app/database.py, lines
329-337): the original descriptive and accounting fields, the given center's
label, the split amounts, `reviewed = TRUE`, and schema defaults for the
columns absent from the INSERT (`display_filename` stays `NULL`). -/
def splitReceiptFor (r : Receipt) (new_id : Nat) (c : String) (amt amt_mxn : ℚ)
    (now : Nat) : Receipt :=
  { id := new_id, filename := r.filename, file_path := r.file_path,
    ocr_text := r.ocr_text, restaurant_name := r.restaurant_name, date := r.date,
    total_amount := some amt, cuenta_contable := r.cuenta_contable,
    pais := r.pais, cc := some c, fx_rate := r.fx_rate,
    markup_percent := r.markup_percent, amount_mxn := some amt_mxn,
    reembolso := r.reembolso, detalle := r.detalle, display_filename := none,
    reviewed := true, created_at := now, updated_at := now }

/-- `ExpenseDatabase.duplicate_receipt_with_cc_split` (src/app/database.py,
lines 307-344): fetch the original row; if absent return false leaving the
store unchanged; otherwise insert one reviewed row per cost center carrying the
original fields with the amounts divided by the center count (`0` when the
original amount is falsy) and sequential fresh ids, then delete the original
row.  (With an empty center list and a truthy amount Python would raise
`ZeroDivisionError` before any insert; the `/divide-cc` route guard below makes
that unreachable.) -/
def duplicate_receipt_with_cc_split (db : DB) (receipt_id : Nat)
    (cost_centers : List String) (now : Nat) : Bool × DB :=
  match db.receipts.find? (fun r => r.id == receipt_id) with
  | none => (false, db)
  | some r =>
    let split_amount : ℚ := match r.total_amount with
      | some a => if a ≠ 0 then a / (cost_centers.length : ℚ) else 0
      | none => 0
    let split_amount_mxn : ℚ := match r.amount_mxn with
      | some a => if a ≠ 0 then a / (cost_centers.length : ℚ) else 0
      | none => 0
    let news : List Receipt := cost_centers.enum.map (fun p =>
      splitReceiptFor r (db.next_id + p.1) p.2 split_amount split_amount_mxn now)
    (true, { db with
      receipts := (db.receipts ++ news).filter (fun x => x.id != receipt_id),
      next_id := db.next_id + cost_centers.length })

/-- The `/divide-cc` route handler `divide_between_cost_centers`
(src/app/main.py, lines 364-377): rejects fewer than 2 cost centers before
touching the store, otherwise delegates to the split operation. -/
def divide_between_cost_centers (db : DB) (receipt_id : Nat)
    (cost_centers : List String) (now : Nat) : Bool × DB :=
  if cost_centers.length < 2 then (false, db)
  else duplicate_receipt_with_cc_split db receipt_id cost_centers now

/-- `ExpenseDatabase.update_all_fx_rates` (src/app/database.py, lines 380-418):
persist the new rate and markup as the process-wide defaults, then rewrite
rate, markup and recomputed reporting amount on every receipt whose local
amount is non-null and strictly positive, and return the number of receipts so
updated. -/
def update_all_fx_rates (db : DB) (new_fx_rate markup_percent : ℚ) (now : Nat) : Nat × DB :=
  let touched : Receipt → Bool := fun r =>
    match r.total_amount with
    | some a => decide (a ≠ 0 ∧ 0 < a)
    | none => false
  ((db.receipts.filter touched).length,
   { db with
     receipts := db.receipts.map (fun r =>
       if touched r then
         { r with
           fx_rate := some new_fx_rate, markup_percent := some markup_percent,
           amount_mxn := some (r.total_amount.getD 0 / new_fx_rate * (1 + markup_percent / 100)),
           updated_at := now }
       else r),
     default_fx_rate := some new_fx_rate,
     default_markup_percent := some markup_percent })

/-- A concrete reviewed receipt used by the concrete-input theorems below. -/
def exampleReceipt : Receipt :=
  { id := 1, filename := "a.jpg", file_path := "uploads/a.jpg", ocr_text := none,
    restaurant_name := some "Old", date := some "2024-01-02", total_amount := some 100,
    cuenta_contable := some "Comidas con Clientes", pais := some "US", cc := some "Alternativos",
    fx_rate := some 20, markup_percent := some (5/2), amount_mxn := some 5,
    reembolso := none, detalle := none, display_filename := some "2024_01_Old.pdf",
    reviewed := true, created_at := 0, updated_at := 0 }

/-- A concrete one-receipt store used by the concrete-input theorems below. -/
def exampleDB : DB :=
  { receipts := [exampleReceipt], next_id := 2, default_fx_rate := none,
    default_markup_percent := none }

/-- A receipt with local amount 300, for the split example. -/
def splitReceipt : Receipt :=
  { id := 1, filename := "b.jpg", file_path := "uploads/b.jpg", ocr_text := none,
    restaurant_name := some "Resto", date := some "2025-03-04", total_amount := some 300,
    cuenta_contable := some "Comidas con Clientes", pais := some "MX", cc := some "Alternativos",
    fx_rate := some 20, markup_percent := some (5/2), amount_mxn := some 15,
    reembolso := none, detalle := none, display_filename := none,
    reviewed := true, created_at := 0, updated_at := 0 }

/-- A one-receipt store holding `splitReceipt`. -/
def splitDB : DB :=
  { receipts := [splitReceipt], next_id := 2, default_fx_rate := none,
    default_markup_percent := none }

/-- A store with one positive-amount receipt and one null-amount receipt, for
the bulk-reprice example. -/
def repriceDB : DB :=
  { receipts :=
      [{ exampleReceipt with id := 1, total_amount := some 100 },
       { exampleReceipt with id := 2, total_amount := none, amount_mxn := none }],
    next_id := 3, default_fx_rate := none, default_markup_percent := none }

/-- C1, counterexample.  The claim says the reporting amount is null for a
negative local amount, and that a supplied markup is applied as given; on the
code a negative local amount of `-100` at rate `20` yields `-5 * 1.025 = -41/8`
(not null), and a supplied markup of `0` is replaced by the default `2.5`,
yielding `1025/20 = 205/4` instead of `50` at amount `1000` and rate `20`. -/
theorem C1_counterexample :
    calc_amount_usd (some (-100)) (some 20) none = some (-(41/8)) ∧
    calc_amount_usd (some 1000) (some 20) (some 0) = some (205/4) := by
  constructor <;> · simp [calc_amount_usd, pyTruthyQ, pyOrQ]; norm_num

/-- C1, amended.  The reporting amount computed by `update_receipt` is null
exactly when the local amount is absent or zero, or the fx rate is absent or
zero (negative values are not rejected); for every supplied nonzero local
amount and nonzero fx rate it is `(local_amount / fx_rate) * (1 + m / 100)`,
where `m` is `markup_percent` when that is supplied and nonzero and `2.5`
otherwise. -/
theorem C1_amended (ta fx mp : Option ℚ) :
    (calc_amount_usd ta fx mp = none ↔ ¬(pyTruthyQ ta = true ∧ pyTruthyQ fx = true)) ∧
    (∀ a f : ℚ, ta = some a → fx = some f → a ≠ 0 → f ≠ 0 →
      calc_amount_usd ta fx mp = some (a / f * (1 + pyOrQ mp (5/2) / 100))) := by
  constructor
  · constructor
    · intro h
      intro ⟨h1, h2⟩
      simp [calc_amount_usd, h1, h2] at h
    · intro h
      rcases Decidable.not_and_iff_or_not.mp h with h | h <;>
        simp only [Bool.not_eq_true] at h <;> simp [calc_amount_usd, h]
  · intro a f hta hfx ha hf
    subst hta; subst hfx
    simp [calc_amount_usd, pyTruthyQ, ha, hf]

/-- C1, witness: `to_reporting_amount(1000, 20, default)` is `51.25 = 205/4`. -/
theorem C1_witness : calc_amount_usd (some 1000) (some 20) none = some (205/4) := by
  have h := (C1_amended (some 1000) (some 20) none).2 1000 20 rfl rfl
    (by norm_num) (by norm_num)
  rw [h]
  norm_num [pyOrQ]

/-- C9.  In `update_receipt` a supplied `markup_percent` of exactly `0` is
swallowed by `(markup_percent or 2.5)`: for positive amount and rate the
computed reporting amount coincides with the one computed for an absent markup
and uses the default `2.5` percent, so a zero markup cannot be expressed. -/
theorem C9_zero_markup (a f : ℚ) (ha : 0 < a) (hf : 0 < f) :
    calc_amount_usd (some a) (some f) (some 0) = calc_amount_usd (some a) (some f) none ∧
    calc_amount_usd (some a) (some f) (some 0) = some (a / f * (1 + (5/2) / 100)) := by
  have ha' : a ≠ 0 := ne_of_gt ha
  have hf' : f ≠ 0 := ne_of_gt hf
  constructor <;> simp [calc_amount_usd, pyTruthyQ, pyOrQ, ha', hf']

/-- C9, witness: at amount `1000`, rate `20`, supplied markup `0`, the code
still applies the `2.5` percent default. -/
theorem C9_witness :
    calc_amount_usd (some 1000) (some 20) (some 0) =
      calc_amount_usd (some 1000) (some 20) none ∧
    calc_amount_usd (some 1000) (some 20) (some 0) = some (1000 / 20 * (1 + (5/2) / 100)) :=
  C9_zero_markup 1000 20 (by norm_num) (by norm_num)

/-- Every key of the NFKD table is a non-ASCII character. -/
theorem nfkdTable_keys_not_ascii : ∀ p ∈ nfkdTable, ¬ p.1.toNat < 128 := by decide

/-- NFKD decomposition is the identity on ASCII characters. -/
theorem nfkdChar_ascii {c : Char} (h : c.toNat < 128) : nfkdChar c = [c] := by
  unfold nfkdChar
  rw [List.find?_eq_none.mpr]
  intro p hp hbeq
  have : p.1 = c := by simpa using hbeq
  exact nfkdTable_keys_not_ascii p hp (this ▸ h)

/-- Flattening pointwise-singleton images reproduces the list. -/
theorem flatten_map_singleton {f : Char → List Char} :
    ∀ l : List Char, (∀ c ∈ l, f c = [c]) → (l.map f).flatten = l := by
  intro l
  induction l with
  | nil => intro _; rfl
  | cons a t ih =>
    intro h
    simp only [List.map_cons, List.flatten_cons, h a (List.mem_cons_self a t)]
    rw [ih (fun c hc => h c (List.mem_cons_of_mem a hc))]
    rfl

/-- Characters of a collapsed list are underscores or surviving non-collapsible
characters of the input. -/
theorem mem_collapseAux {c : Char} :
    ∀ (l : List Char) (b : Bool), c ∈ collapseAux b l →
      c = '_' ∨ (c ∈ l ∧ isCollapsible c = false) := by
  intro l
  induction l with
  | nil => intro b h; simp [collapseAux] at h
  | cons a t ih =>
    intro b h
    by_cases hcol : isCollapsible a = true
    · cases b with
      | true =>
        simp only [collapseAux, hcol, if_true] at h
        rcases ih true h with h' | ⟨h1, h2⟩
        · exact Or.inl h'
        · exact Or.inr ⟨List.mem_cons_of_mem a h1, h2⟩
      | false =>
        simp only [collapseAux, hcol, if_true] at h
        rcases List.mem_cons.mp h with h | h
        · exact Or.inl h
        · rcases ih true h with h' | ⟨h1, h2⟩
          · exact Or.inl h'
          · exact Or.inr ⟨List.mem_cons_of_mem a h1, h2⟩
    · rw [Bool.not_eq_true] at hcol
      simp only [collapseAux, hcol] at h
      rcases List.mem_cons.mp h with h | h
      · subst h
        exact Or.inr ⟨List.mem_cons_self c t, hcol⟩
      · rcases ih false h with h' | ⟨h1, h2⟩
        · exact Or.inl h'
        · exact Or.inr ⟨List.mem_cons_of_mem a h1, h2⟩

/-- Collapsing is the identity on a list without collapsible characters. -/
theorem collapseAux_eq_self {l : List Char} (h : ∀ c ∈ l, isCollapsible c = false) :
    ∀ b, collapseAux b l = l := by
  induction l with
  | nil => intro b; rfl
  | cons a t ih =>
    intro b
    have ha := h a (List.mem_cons_self a t)
    simp only [collapseAux, ha, Bool.false_eq_true, if_false]
    rw [ih (fun c hc => h c (List.mem_cons_of_mem a hc)) false]

/-- The head surviving `dropWhile` fails the predicate. -/
theorem dropWhile_head_false {p : Char → Bool} :
    ∀ l : List Char, ∀ c, (l.dropWhile p).head? = some c → p c = false := by
  intro l
  induction l with
  | nil => intro c h; simp at h
  | cons a t ih =>
    intro c h
    by_cases hp : p a = true
    · rw [List.dropWhile_cons, if_pos hp] at h
      exact ih c h
    · rw [List.dropWhile_cons, if_neg hp] at h
      simp only [List.head?_cons, Option.some.injEq] at h
      subst h
      exact Bool.not_eq_true _ ▸ hp

/-- `dropWhile` is the identity when the head already fails the predicate. -/
theorem dropWhile_eq_self_of_head {p : Char → Bool} {l : List Char}
    (h : ∀ c, l.head? = some c → p c = false) : l.dropWhile p = l := by
  cases l with
  | nil => rfl
  | cons a t =>
    rw [List.dropWhile_cons, if_neg (by simp [h a rfl])]

/-- Prepending a nonempty list preserves the head. -/
theorem head?_append_left {x y : List Char} {c : Char} (h : x.head? = some c) :
    (x ++ y).head? = some c := by
  cases x with
  | nil => simp at h
  | cons a t => simpa using h

/-- Stripped characters come from the original list. -/
theorem mem_stripUnderscores {c : Char} {l : List Char} (h : c ∈ stripUnderscores l) :
    c ∈ l := by
  unfold stripUnderscores at h
  rw [List.mem_reverse] at h
  have h1 := (List.dropWhile_sublist _).subset h
  rw [List.mem_reverse] at h1
  exact (List.dropWhile_sublist _).subset h1

/-- The head of a stripped list is not an underscore. -/
theorem stripUnderscores_head {l : List Char} {c : Char}
    (h : (stripUnderscores l).head? = some c) : (c == '_') = false := by
  unfold stripUnderscores at h
  set A := l.dropWhile (· == '_') with hA
  set D := A.reverse.dropWhile (· == '_') with hD
  have hsplit : A.reverse.takeWhile (· == '_') ++ D = A.reverse := by
    rw [hD]; exact List.takeWhile_append_dropWhile (p := (· == '_')) (l := A.reverse)
  have hAeq : A = D.reverse ++ (A.reverse.takeWhile (· == '_')).reverse := by
    have := congrArg List.reverse hsplit
    rw [List.reverse_append, List.reverse_reverse] at this
    exact this.symm
  have hheadA : A.head? = some c := by
    rw [hAeq]
    exact head?_append_left h
  exact dropWhile_head_false l c (hA ▸ hheadA)

/-- The last character of a stripped list is not an underscore. -/
theorem stripUnderscores_last {l : List Char} {c : Char}
    (h : (stripUnderscores l).getLast? = some c) : (c == '_') = false := by
  unfold stripUnderscores at h
  rw [List.getLast?_reverse] at h
  exact dropWhile_head_false _ c h

/-- Stripping is the identity when neither end is an underscore. -/
theorem stripUnderscores_eq_self {l : List Char}
    (h1 : ∀ c, l.head? = some c → (c == '_') = false)
    (h2 : ∀ c, l.getLast? = some c → (c == '_') = false) :
    stripUnderscores l = l := by
  unfold stripUnderscores
  rw [dropWhile_eq_self_of_head h1]
  rw [dropWhile_eq_self_of_head (by intro c hc; exact h2 c (List.head?_reverse l ▸ hc))]
  exact List.reverse_reverse l

/-- Word characters are never collapsible. -/
theorem word_not_collapsible {c : Char} (h : isWordChar c = true) :
    isCollapsible c = false := by
  by_contra hc
  rw [Bool.not_eq_false] at hc
  simp only [isCollapsible, isPySpace, Bool.or_eq_true, beq_iff_eq, or_assoc] at hc
  rcases hc with rfl | rfl | rfl | rfl | rfl | rfl | rfl <;> exact absurd h (by decide)

/-- The sanitizer pipeline is the identity on a nonempty all-word-character
list with no underscore at either end. -/
theorem sanitizeList_eq_self {l : List Char}
    (hAscii : ∀ c ∈ l, c.toNat < 128)
    (hWord : ∀ c ∈ l, isWordChar c = true)
    (hHead : ∀ c, l.head? = some c → (c == '_') = false)
    (hLast : ∀ c, l.getLast? = some c → (c == '_') = false) :
    sanitizeList l = l := by
  unfold sanitizeList
  rw [flatten_map_singleton l (fun c hc => nfkdChar_ascii (hAscii c hc))]
  have hfa : l.filter isAsciiChar = l :=
    List.filter_eq_self.mpr (fun c hc => decide_eq_true (hAscii c hc))
  rw [hfa]
  have hfk : l.filter keepChar = l :=
    List.filter_eq_self.mpr (fun c hc => by simp [keepChar, hWord c hc])
  rw [hfk]
  rw [show collapseRuns l = l from
    collapseAux_eq_self (fun c hc => word_not_collapsible (hWord c hc)) false]
  exact stripUnderscores_eq_self hHead hLast

/-- Every sanitized list consists of ASCII word characters and has no
underscore at either end. -/
theorem sanitizeList_output (l : List Char) :
    (∀ c ∈ sanitizeList l, c.toNat < 128 ∧ isWordChar c = true) ∧
    (∀ c, (sanitizeList l).head? = some c → (c == '_') = false) ∧
    (∀ c, (sanitizeList l).getLast? = some c → (c == '_') = false) := by
  refine ⟨?_, fun c hc => stripUnderscores_head hc, fun c hc => stripUnderscores_last hc⟩
  intro c hc
  have hc1 := mem_stripUnderscores hc
  rcases mem_collapseAux _ false hc1 with rfl | ⟨h1, h2⟩
  · exact ⟨by decide, by decide⟩
  · have hkeep := List.of_mem_filter h1
    have hmem2 : c ∈ (l.map nfkdChar).flatten.filter isAsciiChar := List.mem_of_mem_filter h1
    have hascii := List.of_mem_filter hmem2
    refine ⟨by simpa [isAsciiChar] using hascii, ?_⟩
    simp only [keepChar, Bool.or_eq_true] at hkeep
    rcases hkeep with (hw | hs) | hh
    · exact hw
    · exfalso; rw [show isCollapsible c = true by simp [isCollapsible, hs]] at h2; cases h2
    · exfalso; rw [show isCollapsible c = true by simp [isCollapsible, hh]] at h2; cases h2

/-- C5, counterexample.  The claim says canonicalize returns null whenever the
date does not parse as `YYYY-MM-DD`; the `file_utils.format_receipt_filename`
wired into the receipt store never parses the date — it just slices the first
seven characters — so the unparseable date `"garbage"` produces a non-null
result. -/
theorem C5_counterexample :
    format_receipt_filename (some "garbage") (some "X") = some "garbage_X" := by decide

/-- C5, amended.  `format_receipt_filename` returns null exactly when either
input is missing (`None`) or empty; in particular `canonicalize(None,
"Anything")` is null.  The date format is not validated. -/
theorem C5_amended (date name : Option String) :
    format_receipt_filename date name = none ↔
      (pyTruthyS date = false ∨ pyTruthyS name = false) := by
  unfold format_receipt_filename
  by_cases h1 : pyTruthyS date <;> by_cases h2 : pyTruthyS name <;> simp [h1, h2]

/-- C5, witness: a missing date gives null. -/
theorem C5_witness : format_receipt_filename none (some "Anything") = none :=
  (C5_amended none (some "Anything")).mpr (Or.inl rfl)

/-- C7.  `canonicalize` is a pure function (determinism is by construction) and
its name-sanitization step is idempotent: re-sanitizing any sanitized name
yields the same string, so canonical outputs are fixed points. -/
theorem C7_sanitize_idempotent (t : Option String) :
    sanitize_filename (some (sanitize_filename t)) = sanitize_filename t := by
  match t with
  | none => decide
  | some s =>
    by_cases hs : s = ""
    · subst hs; decide
    · by_cases hr : sanitizeList s.data = []
      · have hinner : sanitize_filename (some s) = "Unknown" := by
          simp [sanitize_filename, hs, hr]
        rw [hinner]
        decide
      · have hinner : sanitize_filename (some s) = String.mk (sanitizeList s.data) := by
          simp [sanitize_filename, hs, hr]
        rw [hinner]
        have hout := sanitizeList_output s.data
        have hne : String.mk (sanitizeList s.data) ≠ "" := by
          intro hcontra
          exact hr (by simpa using congrArg String.data hcontra)
        have hfix : sanitizeList (String.mk (sanitizeList s.data)).data
            = sanitizeList s.data :=
          sanitizeList_eq_self (fun c hc => (hout.1 c hc).1)
            (fun c hc => (hout.1 c hc).2) hout.2.1 hout.2.2
        simp [sanitize_filename, hne, hfix, hr]

/-- C6.  For a date of shape `yyyy-mm-...` (four-digit year, two-digit month)
and a nonempty name, `canonicalize` returns
`{year}_{zero-padded month}_{sanitized name}`; and the spec's two concrete
examples hold: accents are decomposed and dropped, punctuation is removed and
whitespace runs become single underscores. -/
theorem C6_canonical_format :
    (∀ y m rest n : String, y.length = 4 → m.length = 2 →
      (∀ c ∈ y.data, c.isDigit = true) → (∀ c ∈ m.data, c.isDigit = true) → n ≠ "" →
      format_receipt_filename (some (y ++ "-" ++ m ++ "-" ++ rest)) (some n)
        = some (y ++ "_" ++ m ++ "_" ++ sanitize_filename (some n))) ∧
    format_receipt_filename (some "2025-10-15") (some "Café René")
      = some "2025_10_Cafe_Rene" ∧
    format_receipt_filename (some "2025-10-15") (some "Restaurant & Bar!")
      = some "2025_10_Restaurant_Bar" := by
  refine ⟨?_, by decide, by decide⟩
  intro y m rest n hy hm hdy hdm hn
  have hy' : y.data.length = 4 := hy
  have hm' : m.data.length = 2 := hm
  have hdata : (y ++ "-" ++ m ++ "-" ++ rest).data
      = y.data ++ '-' :: (m.data ++ '-' :: rest.data) := by
    simp [String.data_append]
  have hbne : (y ++ "-" ++ m ++ "-" ++ rest) ≠ "" := by
    intro hcon
    have h2 := congrArg String.data hcon
    rw [hdata] at h2
    simp at h2
  have htake : ((y ++ "-" ++ m ++ "-" ++ rest).data).take 7 = y.data ++ '-' :: m.data := by
    rw [hdata, List.take_append_eq_append_take,
      List.take_of_length_le (by rw [hy']; norm_num), hy',
      show (7 : Nat) - 4 = 2 + 1 from rfl, List.take_succ_cons,
      List.take_append_eq_append_take,
      List.take_of_length_le (by rw [hm']), hm',
      show (2 : Nat) - 2 = 0 from rfl, List.take_zero, List.append_nil]
  have hfy : y.data.map (fun c => if c == '-' then '_' else c) = y.data := by
    conv_rhs => rw [← List.map_id y.data]
    apply List.map_congr_left
    intro c hc
    have hne : (c == '-') = false := by
      cases hbc : c == '-'
      · rfl
      · exact absurd (hdy c hc) (by rw [eq_of_beq hbc]; decide)
    simp [hne]
  have hfm : m.data.map (fun c => if c == '-' then '_' else c) = m.data := by
    conv_rhs => rw [← List.map_id m.data]
    apply List.map_congr_left
    intro c hc
    have hne : (c == '-') = false := by
      cases hbc : c == '-'
      · rfl
      · exact absurd (hdm c hc) (by rw [eq_of_beq hbc]; decide)
    simp [hne]
  have hmap : (y.data ++ '-' :: m.data).map (fun c => if c == '-' then '_' else c)
      = y.data ++ '_' :: m.data := by
    rw [List.map_append, List.map_cons, hfy, hfm]
    rfl
  have hfinal : String.mk (((y ++ "-" ++ m ++ "-" ++ rest).data.take 7).map
      (fun c => if c == '-' then '_' else c)) = y ++ "_" ++ m := by
    rw [htake, hmap]
    have hdata2 : (y ++ "_" ++ m).data = y.data ++ '_' :: m.data := by
      simp [String.data_append]
    calc String.mk (y.data ++ '_' :: m.data)
        = String.mk ((y ++ "_" ++ m).data) := by rw [hdata2]
      _ = y ++ "_" ++ m := rfl
  have hcond : (!pyTruthyS (some (y ++ "-" ++ m ++ "-" ++ rest)) || !pyTruthyS (some n))
      = false := by
    simp [pyTruthyS, hbne, hn]
  simp only [format_receipt_filename, hcond, Bool.false_eq_true, if_false,
    Option.getD_some]
  rw [hfinal]

/-- C6, witness: the general shape applied at `2025-10-15` / `Cafe`. -/
theorem C6_witness :
    format_receipt_filename (some ("2025" ++ "-" ++ "10" ++ "-" ++ "15")) (some "Cafe")
      = some ("2025" ++ "_" ++ "10" ++ "_" ++ sanitize_filename (some "Cafe")) :=
  C6_canonical_format.1 "2025" "10" "15" "Cafe" (by decide) (by decide) (by decide)
    (by decide) (by decide)

/-- C4.  The deduplication resolver returns the candidate unchanged when it is
not taken; otherwise it returns `base_k ++ ext` for the least suffix
`k = 2, 3, …` that is absent from `taken`; and the result depends only on the
membership of `taken`, not on its enumeration order. -/
theorem C4_make_unique (base ext : String) (taken : List String) :
    (base ++ ext ∉ taken → get_unique_filename taken base ext = base ++ ext) ∧
    (base ++ ext ∈ taken →
      ∃ k, 2 ≤ k ∧ get_unique_filename taken base ext = mkNumberedName base k ext ∧
        mkNumberedName base k ext ∉ taken ∧
        ∀ j, 2 ≤ j → j < k → mkNumberedName base j ext ∈ taken) ∧
    (∀ taken' : List String, (∀ s : String, s ∈ taken ↔ s ∈ taken') →
      get_unique_filename taken base ext = get_unique_filename taken' base ext) := by
  refine ⟨?_, ?_, ?_⟩
  · intro h
    unfold get_unique_filename
    rw [if_neg h]
  · intro h
    unfold get_unique_filename
    rw [if_pos h]
    refine ⟨2 + Nat.find (free_suffix_exists base ext taken), by omega, rfl,
      Nat.find_spec (free_suffix_exists base ext taken), ?_⟩
    intro j h2 hj
    have hmin := Nat.find_min (free_suffix_exists base ext taken)
      (show j - 2 < Nat.find (free_suffix_exists base ext taken) by omega)
    rw [show 2 + (j - 2) = j from by omega] at hmin
    exact not_not.mp hmin
  · intro taken' hiff
    unfold get_unique_filename
    by_cases hmem : base ++ ext ∈ taken
    · rw [if_pos hmem, if_pos ((hiff _).mp hmem)]
      have hfind : Nat.find (free_suffix_exists base ext taken)
          = Nat.find (free_suffix_exists base ext taken') := by
        apply le_antisymm
        · exact Nat.find_le (fun hc =>
            Nat.find_spec (free_suffix_exists base ext taken') ((hiff _).mp hc))
        · exact Nat.find_le (fun hc =>
            Nat.find_spec (free_suffix_exists base ext taken) ((hiff _).mpr hc))
      rw [hfind]
    · rw [if_neg hmem, if_neg (fun hc => hmem ((hiff _).mpr hc))]

/-- C4, witness: the spec's example.  `make_unique` suffixes a taken canonical
name with `_2` and leaves a free name (with its extension) unchanged. -/
theorem C4_witness :
    get_unique_filename ["2025_10_Cafe_Rene"] "2025_10_Cafe_Rene" ""
      = "2025_10_Cafe_Rene_2" ∧
    get_unique_filename ["2025_10_Cafe_Rene", "2025_10_Cafe_Rene_2"] "2025_10_Cafe_Rene" ""
      = "2025_10_Cafe_Rene_3" ∧
    get_unique_filename ["a.pdf"] "b" ".pdf" = "b.pdf" := by
  refine ⟨?_, ?_, (C4_make_unique "b" ".pdf" ["a.pdf"]).1 (by decide)⟩
  · unfold get_unique_filename
    rw [if_pos (by decide)]
    rw [show Nat.find (free_suffix_exists "2025_10_Cafe_Rene" "" ["2025_10_Cafe_Rene"]) = 0
      from (Nat.find_eq_zero _).mpr (by decide)]
    decide
  · unfold get_unique_filename
    rw [if_pos (by decide)]
    rw [show Nat.find (free_suffix_exists "2025_10_Cafe_Rene" ""
        ["2025_10_Cafe_Rene", "2025_10_Cafe_Rene_2"]) = 1
      from by
        rw [Nat.find_eq_iff]
        refine ⟨by decide, ?_⟩
        intro j hj
        rw [show j = 0 from by omega]
        decide]
    decide

/-- For truthy inputs the canonicalizer always succeeds with a nonempty name
(its output contains the underscore after the year-month part). -/
theorem format_truthy_some {date restaurant_name : Option String}
    (hd : pyTruthyS date = true) (hn : pyTruthyS restaurant_name = true) :
    ∃ s, format_receipt_filename date restaurant_name = some s ∧ s ≠ "" := by
  unfold format_receipt_filename
  rw [if_neg (by simp [hd, hn])]
  refine ⟨_, rfl, ?_⟩
  intro hcon
  have h2 := congrArg String.data hcon
  rw [String.data_append, String.data_append] at h2
  simp at h2

/-- C2, counterexample.  The claim says that when the date is absent the
previously stored display filename is left unchanged; in the code the UPDATE
always writes the freshly computed value, which is NULL in that case, so the
stored name `2024_01_Old.pdf` is erased. -/
theorem C2_counterexample :
    exampleDB.receipts.map (fun r => r.display_filename) = [some "2024_01_Old.pdf"] ∧
    ((update_receipt exampleDB 1 (some "New") none none none none none none none none
      5).receipts.map (fun r => r.display_filename)) = [none] := by
  constructor
  · decide
  · decide

/-- C2, amended.  `update_receipt` recomputes and stores the canonical display
filename exactly when both date and restaurant name are truthy; when either is
absent or empty it overwrites the stored display filename with null (it is not
preserved); in every case the matching receipt gets `reviewed = true` and its
`updated_at` set to the current timestamp, and other receipts are untouched. -/
theorem C2_amended (db : DB) (receipt_id : Nat) (restaurant_name date : Option String)
    (total_amount : Option ℚ) (cuenta_contable cc : Option String)
    (fx_rate markup_percent : Option ℚ) (reembolso detalle : Option String) (now : Nat) :
    let db' := update_receipt db receipt_id restaurant_name date total_amount
      cuenta_contable cc fx_rate markup_percent reembolso detalle now
    db'.receipts.length = db.receipts.length ∧
    (∀ r ∈ db.receipts, r.id ≠ receipt_id → r ∈ db'.receipts) ∧
    (∀ r' ∈ db'.receipts, r'.id = receipt_id → r'.reviewed = true ∧ r'.updated_at = now) ∧
    (¬(pyTruthyS date = true ∧ pyTruthyS restaurant_name = true) →
      ∀ r' ∈ db'.receipts, r'.id = receipt_id → r'.display_filename = none) ∧
    (pyTruthyS date = true → pyTruthyS restaurant_name = true →
      ∃ s, format_receipt_filename date restaurant_name = some s ∧ s ≠ "" ∧
        ∀ r' ∈ db'.receipts, r'.id = receipt_id →
          r'.display_filename
            = some (get_unique_filename (existing_display_names db receipt_id) s ""
                ++ ".pdf")) := by
  intro db'
  have hdb' : db'.receipts = db.receipts.map (fun r =>
      if r.id = receipt_id then
        { r with
          restaurant_name := restaurant_name, date := date,
          total_amount := total_amount, cuenta_contable := cuenta_contable, cc := cc,
          fx_rate := fx_rate, markup_percent := markup_percent,
          amount_mxn := calc_amount_usd total_amount fx_rate markup_percent,
          reembolso := reembolso, detalle := detalle,
          display_filename := compute_display_filename db receipt_id restaurant_name date,
          reviewed := true, updated_at := now }
      else r) := rfl
  refine ⟨by rw [hdb']; exact List.length_map _ _, ?_, ?_, ?_, ?_⟩
  · intro r hr hne
    rw [hdb']
    exact List.mem_map.mpr ⟨r, hr, by rw [if_neg hne]⟩
  · intro r' hr' hid
    rw [hdb'] at hr'
    obtain ⟨r, hr, heq⟩ := List.mem_map.mp hr'
    by_cases hrid : r.id = receipt_id
    · rw [if_pos hrid] at heq
      subst heq
      exact ⟨rfl, rfl⟩
    · rw [if_neg hrid] at heq
      subst heq
      exact absurd hid hrid
  · intro hfalse r' hr' hid
    rw [hdb'] at hr'
    obtain ⟨r, hr, heq⟩ := List.mem_map.mp hr'
    by_cases hrid : r.id = receipt_id
    · rw [if_pos hrid] at heq
      subst heq
      show compute_display_filename db receipt_id restaurant_name date = none
      unfold compute_display_filename
      rw [if_neg (by
        intro hcon
        rcases Bool.and_eq_true _ _ |>.mp hcon with ⟨h1, h2⟩
        exact hfalse ⟨h1, h2⟩)]
    · rw [if_neg hrid] at heq
      subst heq
      exact absurd hid hrid
  · intro hd hn
    obtain ⟨s, hfmt, hsne⟩ := format_truthy_some hd hn
    refine ⟨s, hfmt, hsne, ?_⟩
    intro r' hr' hid
    rw [hdb'] at hr'
    obtain ⟨r, hr, heq⟩ := List.mem_map.mp hr'
    by_cases hrid : r.id = receipt_id
    · rw [if_pos hrid] at heq
      subst heq
      show compute_display_filename db receipt_id restaurant_name date = _
      unfold compute_display_filename
      rw [if_pos (by simp [hd, hn]), hfmt]
      simp [hsne]
    · rw [if_neg hrid] at heq
      subst heq
      exact absurd hid hrid

/-- C2, witness: with both date and name supplied the single matching receipt
of the concrete store receives the deduplicated canonical display filename. -/
theorem C2_witness :
    ∃ s, format_receipt_filename (some "2025-10-15") (some "New") = some s ∧ s ≠ "" ∧
      ∀ r' ∈ (update_receipt exampleDB 1 (some "New") (some "2025-10-15") none none none
          none none none none 5).receipts, r'.id = 1 →
        r'.display_filename
          = some (get_unique_filename (existing_display_names exampleDB 1) s "" ++ ".pdf") :=
  (C2_amended exampleDB 1 (some "New") (some "2025-10-15") none none none none none none
    none 5).2.2.2.2 (by decide) (by decide)

/-- C10, counterexample.  The claim says every correctable and accounting
field is set to the argument (null when omitted); but `pais` (the country
code, an accounting field) is absent from the UPDATE's SET list: an all-null
call leaves the stored `pais = some "US"` in place instead of nulling it,
while it does erase name, date, amount and display filename and still sets
`reviewed = true`. -/
theorem C10_counterexample :
    exampleDB.receipts.map (fun r => r.pais) = [some "US"] ∧
    (update_receipt exampleDB 1 none none none none none none none none none
        5).receipts.map (fun r => r.pais) = [some "US"] ∧
    (update_receipt exampleDB 1 none none none none none none none none none
        5).receipts.map (fun r => r.reviewed) = [true] ∧
    (update_receipt exampleDB 1 none none none none none none none none none
        5).receipts.map (fun r => r.restaurant_name) = [none] ∧
    (update_receipt exampleDB 1 none none none none none none none none none
        5).receipts.map (fun r => r.date) = [none] ∧
    (update_receipt exampleDB 1 none none none none none none none none none
        5).receipts.map (fun r => r.total_amount) = [none] ∧
    (update_receipt exampleDB 1 none none none none none none none none none
        5).receipts.map (fun r => r.display_filename) = [none] := by
  refine ⟨by decide, by decide, by decide, by decide, by decide, by decide, by decide⟩

/-- C10, amended.  `update_receipt` overwrites every field in its SET list
with exactly the argument passed (null when omitted), recomputes the reporting
amount and display filename, and unconditionally sets `reviewed = true` and
`updated_at`; the fields outside the SET list — `pais`, `filename`,
`file_path`, `ocr_text`, `created_at` — keep their stored values. -/
theorem C10_amended (db : DB) (receipt_id : Nat) (restaurant_name date : Option String)
    (total_amount : Option ℚ) (cuenta_contable cc : Option String)
    (fx_rate markup_percent : Option ℚ) (reembolso detalle : Option String) (now : Nat)
    (r : Receipt) (hr : r ∈ db.receipts) (hid : r.id = receipt_id) :
    { r with
      restaurant_name := restaurant_name, date := date, total_amount := total_amount,
      cuenta_contable := cuenta_contable, cc := cc, fx_rate := fx_rate,
      markup_percent := markup_percent,
      amount_mxn := calc_amount_usd total_amount fx_rate markup_percent,
      reembolso := reembolso, detalle := detalle,
      display_filename := compute_display_filename db receipt_id restaurant_name date,
      reviewed := true, updated_at := now }
      ∈ (update_receipt db receipt_id restaurant_name date total_amount cuenta_contable cc
          fx_rate markup_percent reembolso detalle now).receipts :=
  List.mem_map.mpr ⟨r, hr, by rw [if_pos hid]⟩

/-- C10, witness: the all-null call on the concrete store yields the reviewed
row with erased correctable fields and preserved `pais`. -/
theorem C10_witness :
    { exampleReceipt with
      restaurant_name := (none : Option String), date := none, total_amount := none,
      cuenta_contable := none, cc := none, fx_rate := none, markup_percent := none,
      amount_mxn := calc_amount_usd none none none, reembolso := none, detalle := none,
      display_filename := compute_display_filename exampleDB 1 none none,
      reviewed := true, updated_at := 5 }
      ∈ (update_receipt exampleDB 1 none none none none none none none none none 5).receipts :=
  C10_amended exampleDB 1 none none none none none none none none none 5 exampleReceipt
    (List.mem_cons_self _ _) rfl

/-- Deleting the unique row with a given id from a store with distinct ids
shortens the list by exactly one. -/
theorem length_filter_ne_id :
    ∀ {l : List Receipt} {rid : Nat}, (l.map (fun x => x.id)).Nodup →
      ∀ {x : Receipt}, x ∈ l → x.id = rid →
      (l.filter (fun y => y.id != rid)).length = l.length - 1 := by
  intro l
  induction l with
  | nil => intro rid _ x hx; cases hx
  | cons c t ih =>
    intro rid hnodup x hx hid
    rw [List.map_cons, List.nodup_cons] at hnodup
    by_cases hc : c.id = rid
    · have hall : t.filter (fun y => y.id != rid) = t := by
        apply List.filter_eq_self.mpr
        intro y hy
        have hmem : y.id ∈ t.map (fun x => x.id) := List.mem_map_of_mem _ hy
        have hyne : y.id ≠ rid := by
          intro hcon
          exact hnodup.1 (by rw [hc, ← hcon]; exact hmem)
        simp [hyne]
      have hcfalse : (c.id != rid) = false := by simp [hc]
      rw [List.filter_cons, hcfalse]
      simp only [Bool.false_eq_true, if_false]
      rw [hall]
      simp
    · have hxt : x ∈ t := by
        rcases List.mem_cons.mp hx with rfl | h
        · exact absurd hid hc
        · exact h
      have hct : (c.id != rid) = true := by simp [hc]
      rw [List.filter_cons, hct]
      simp only [if_true, List.length_cons]
      rw [ih hnodup.2 hxt hid]
      have hpos : 1 ≤ t.length := List.length_pos.mpr (List.ne_nil_of_mem hxt)
      omega

/-- C3.  Given at least 2 cost centers and a stored receipt with amounts
present, the split operation succeeds and replaces the original record by one
new reviewed record per center — each carrying the original descriptive
fields, that center's label and the amounts divided evenly — while other
records survive; with fewer than 2 centers the route fails and the store is
unchanged. -/
theorem C3_cost_center_split (db : DB) (receipt_id : Nat) (ccs : List String) (now : Nat)
    (r : Receipt) (a b : ℚ)
    (hfind : db.receipts.find? (fun x => x.id == receipt_id) = some r)
    (hids : ∀ x ∈ db.receipts, x.id < db.next_id)
    (hnodup : (db.receipts.map (fun x => x.id)).Nodup)
    (hlen : 2 ≤ ccs.length)
    (ha : r.total_amount = some a) (hb : r.amount_mxn = some b)
    (ha0 : a ≠ 0) (hb0 : b ≠ 0) :
    let res := divide_between_cost_centers db receipt_id ccs now
    res.1 = true ∧
    (∀ x ∈ res.2.receipts, x.id ≠ receipt_id) ∧
    res.2.receipts.length = db.receipts.length - 1 + ccs.length ∧
    (∀ x ∈ db.receipts, x.id ≠ receipt_id → x ∈ res.2.receipts) ∧
    (∀ i, ∀ hi : i < ccs.length, ∃ x, x ∈ res.2.receipts ∧
      x.cc = some (ccs.get ⟨i, hi⟩) ∧ x.total_amount = some (a / (ccs.length : ℚ)) ∧
      x.amount_mxn = some (b / (ccs.length : ℚ)) ∧
      x.restaurant_name = r.restaurant_name ∧ x.date = r.date ∧
      x.filename = r.filename ∧ x.file_path = r.file_path ∧ x.ocr_text = r.ocr_text ∧
      x.cuenta_contable = r.cuenta_contable ∧ x.pais = r.pais ∧ x.fx_rate = r.fx_rate ∧
      x.markup_percent = r.markup_percent ∧ x.reembolso = r.reembolso ∧
      x.detalle = r.detalle ∧ x.reviewed = true) ∧
    (∀ ccs2 : List String, ccs2.length < 2 →
      divide_between_cost_centers db receipt_id ccs2 now = (false, db)) := by
  intro res
  have hrmem : r ∈ db.receipts := List.mem_of_find?_eq_some hfind
  have hrid : r.id = receipt_id := by simpa using List.find?_some hfind
  have hres : res = (true, { db with
      receipts := (db.receipts ++ ccs.enum.map (fun p =>
        splitReceiptFor r (db.next_id + p.1) p.2 (a / (ccs.length : ℚ))
          (b / (ccs.length : ℚ)) now)).filter (fun x => x.id != receipt_id),
      next_id := db.next_id + ccs.length }) := by
    show divide_between_cost_centers db receipt_id ccs now = _
    unfold divide_between_cost_centers
    rw [if_neg (by omega)]
    unfold duplicate_receipt_with_cc_split
    rw [hfind]
    simp only [ha, hb]
    rw [if_pos ha0, if_pos hb0]
  have hnewid : ∀ x ∈ ccs.enum.map (fun p =>
      splitReceiptFor r (db.next_id + p.1) p.2 (a / (ccs.length : ℚ))
        (b / (ccs.length : ℚ)) now), x.id ≠ receipt_id := by
    intro x hx
    obtain ⟨p, _, rfl⟩ := List.mem_map.mp hx
    show db.next_id + p.1 ≠ receipt_id
    have h1 := hids r hrmem
    rw [← hrid]
    omega
  have hfilterN : (ccs.enum.map (fun p =>
      splitReceiptFor r (db.next_id + p.1) p.2 (a / (ccs.length : ℚ))
        (b / (ccs.length : ℚ)) now)).filter (fun x => x.id != receipt_id)
      = ccs.enum.map (fun p =>
        splitReceiptFor r (db.next_id + p.1) p.2 (a / (ccs.length : ℚ))
          (b / (ccs.length : ℚ)) now) :=
    List.filter_eq_self.mpr (fun x hx => by simp [hnewid x hx])
  have hrec : res.2.receipts = db.receipts.filter (fun x => x.id != receipt_id)
      ++ ccs.enum.map (fun p =>
        splitReceiptFor r (db.next_id + p.1) p.2 (a / (ccs.length : ℚ))
          (b / (ccs.length : ℚ)) now) := by
    rw [hres]
    rw [List.filter_append, hfilterN]
  refine ⟨by rw [hres], ?_, ?_, ?_, ?_, ?_⟩
  · intro x hx
    rw [hrec] at hx
    rcases List.mem_append.mp hx with hx | hx
    · have := (List.mem_filter.mp hx).2
      simpa using this
    · exact hnewid x hx
  · rw [hrec, List.length_append, List.length_map, List.enum_length,
      length_filter_ne_id hnodup hrmem hrid]
  · intro x hx hne
    rw [hrec]
    exact List.mem_append_left _ (List.mem_filter.mpr ⟨hx, by simp [hne]⟩)
  · intro i hi
    refine ⟨splitReceiptFor r (db.next_id + i) (ccs.get ⟨i, hi⟩) (a / (ccs.length : ℚ))
      (b / (ccs.length : ℚ)) now, ?_, rfl, rfl, rfl, rfl, rfl, rfl, rfl, rfl, rfl, rfl,
      rfl, rfl, rfl, rfl, rfl⟩
    rw [hrec]
    apply List.mem_append_right
    apply List.mem_map.mpr
    refine ⟨(i, ccs.get ⟨i, hi⟩), ?_, rfl⟩
    have hget : ccs.enum.get ⟨i, by rw [List.enum_length]; exact hi⟩
        = (i, ccs.get ⟨i, hi⟩) := by simp [List.getElem_enum]
    rw [← hget]
    exact List.get_mem _ _ _
  · intro ccs2 h2
    unfold divide_between_cost_centers
    rw [if_pos h2]

/-- C3, witness: splitting a 300-amount receipt across 3 centers yields 3 new
reviewed records of 100 each, the original id is gone, and a 1-center split
fails leaving the store unchanged. -/
theorem C3_witness :
    (divide_between_cost_centers splitDB 1 ["A", "B", "C"] 7).1 = true ∧
    (∀ x ∈ (divide_between_cost_centers splitDB 1 ["A", "B", "C"] 7).2.receipts, x.id ≠ 1) ∧
    (divide_between_cost_centers splitDB 1 ["A", "B", "C"] 7).2.receipts.length = 3 ∧
    (∃ x, x ∈ (divide_between_cost_centers splitDB 1 ["A", "B", "C"] 7).2.receipts ∧
      x.cc = some "B" ∧ x.total_amount = some 100 ∧ x.reviewed = true) ∧
    divide_between_cost_centers splitDB 1 ["X"] 7 = (false, splitDB) := by
  have h := C3_cost_center_split splitDB 1 ["A", "B", "C"] 7 splitReceipt 300 15 rfl
    (by decide) (by decide) (by decide) rfl rfl (by norm_num) (by norm_num)
  refine ⟨h.1, h.2.1, h.2.2.1, ?_, h.2.2.2.2.2 ["X"] (by decide)⟩
  obtain ⟨x, hx, hcc, hta, _, _, _, _, _, _, _, _, _, _, _, _, hrev⟩ :=
    h.2.2.2.2.1 1 (by norm_num)
  refine ⟨x, hx, hcc, ?_, hrev⟩
  rw [hta]
  norm_num

/-- C8.  The bulk reprice updates exactly the receipts with a non-null,
strictly positive local amount, writing the new rate, new markup and the
recomputed reporting amount together (and the current timestamp) onto each;
other receipts are untouched; the returned value is the number of updated
receipts; the new rate and markup are persisted as the process-wide defaults,
so a subsequent insert with a positive amount uses them for its initial
reporting amount. -/
theorem C8_bulk_reprice (db : DB) (fx mk : ℚ) (now : Nat) :
    let res := update_all_fx_rates db fx mk now
    res.2.receipts.length = db.receipts.length ∧
    (∀ r ∈ db.receipts, ∀ a : ℚ, r.total_amount = some a → 0 < a →
      { r with
        fx_rate := some fx, markup_percent := some mk,
        amount_mxn := some (a / fx * (1 + mk / 100)),
        updated_at := now } ∈ res.2.receipts) ∧
    (∀ r ∈ db.receipts,
      (r.total_amount = none ∨ ∃ a : ℚ, r.total_amount = some a ∧ ¬ 0 < a) →
      r ∈ res.2.receipts) ∧
    res.1 = (db.receipts.filter (fun r => match r.total_amount with
      | some a => decide (a ≠ 0 ∧ 0 < a)
      | none => false)).length ∧
    res.2.default_fx_rate = some fx ∧ res.2.default_markup_percent = some mk ∧
    (∀ (fn fp : String) (ot rn d : Option String) (t : ℚ) (now2 : Nat), 0 < t →
      ∃ rec : Receipt,
        (add_receipt res.2 fn fp ot rn d (some t) now2).2.receipts.getLast? = some rec ∧
        rec.fx_rate = some fx ∧ rec.markup_percent = some mk ∧
        rec.amount_mxn = some (t / fx * (1 + mk / 100)) ∧ rec.reviewed = false) := by
  intro res
  refine ⟨by exact List.length_map _ _, ?_, ?_, rfl, rfl, rfl, ?_⟩
  · intro r hr a ha hapos
    apply List.mem_map.mpr
    refine ⟨r, hr, ?_⟩
    have htouch : ((fun x : Receipt => match x.total_amount with
        | some a => decide (a ≠ 0 ∧ 0 < a)
        | none => false) r) = true := by
      show (match r.total_amount with
        | some a => decide (a ≠ 0 ∧ 0 < a)
        | none => false) = true
      rw [ha]
      show decide (a ≠ 0 ∧ 0 < a) = true
      exact decide_eq_true ⟨ne_of_gt hapos, hapos⟩
    rw [if_pos htouch, ha]
    rfl
  · intro r hr hskip
    apply List.mem_map.mpr
    refine ⟨r, hr, ?_⟩
    have htouch : ((fun x : Receipt => match x.total_amount with
        | some a => decide (a ≠ 0 ∧ 0 < a)
        | none => false) r) = false := by
      show (match r.total_amount with
        | some a => decide (a ≠ 0 ∧ 0 < a)
        | none => false) = false
      rcases hskip with hnone | ⟨a, ha, hneg⟩
      · rw [hnone]
      · rw [ha]
        show decide (a ≠ 0 ∧ 0 < a) = false
        exact decide_eq_false (fun hcon => hneg hcon.2)
    rw [if_neg (by rw [htouch]; exact Bool.false_ne_true)]
  · intro fn fp ot rn d t now2 ht
    refine ⟨_, List.getLast?_concat _, ?_, ?_, ?_, rfl⟩
    · rfl
    · rfl
    · show (if t ≠ 0 ∧ 0 < t then
          some (t / (res.2.default_fx_rate.getD 20)
            * (1 + (res.2.default_markup_percent.getD (5/2)) / 100))
        else none) = some (t / fx * (1 + mk / 100))
      rw [if_pos (show t ≠ 0 ∧ 0 < t from ⟨ne_of_gt ht, ht⟩)]
      rfl

/-- C8, witness: on a store with one positive-amount receipt and one
null-amount receipt, repricing at rate 10 / markup 5 updates exactly the first
(count 1), leaves the second untouched, persists the defaults, and a
subsequent insert of amount 50 uses the new defaults. -/
theorem C8_witness :
    ({ exampleReceipt with id := 1, total_amount := some 100 } : Receipt)
      ∈ repriceDB.receipts ∧
    ({ exampleReceipt with
        id := 1, total_amount := some 100, fx_rate := some 10,
        markup_percent := some 5, amount_mxn := some ((100 : ℚ) / 10 * (1 + 5 / 100)),
        updated_at := 9 } : Receipt) ∈ (update_all_fx_rates repriceDB 10 5 9).2.receipts ∧
    ({ exampleReceipt with id := 2, total_amount := none, amount_mxn := none } : Receipt)
      ∈ (update_all_fx_rates repriceDB 10 5 9).2.receipts ∧
    (update_all_fx_rates repriceDB 10 5 9).1 = 1 ∧
    (update_all_fx_rates repriceDB 10 5 9).2.default_fx_rate = some 10 ∧
    (∃ rec : Receipt,
      (add_receipt (update_all_fx_rates repriceDB 10 5 9).2 "f.jpg" "p/f.jpg" none none
        none (some 50) 11).2.receipts.getLast? = some rec ∧
      rec.fx_rate = some 10 ∧ rec.markup_percent = some 5 ∧
      rec.amount_mxn = some ((50 : ℚ) / 10 * (1 + 5 / 100)) ∧ rec.reviewed = false) := by
  have h := C8_bulk_reprice repriceDB 10 5 9
  refine ⟨List.mem_cons_self _ _, ?_, ?_, ?_, h.2.2.2.2.1,
    h.2.2.2.2.2.2 "f.jpg" "p/f.jpg" none none none 50 11 (by norm_num)⟩
  · exact h.2.1 ({ exampleReceipt with id := 1, total_amount := some 100 })
      (List.mem_cons_self _ _) 100 rfl (by norm_num)
  · exact h.2.2.1 ({ exampleReceipt with id := 2, total_amount := none, amount_mxn := none })
      (List.mem_cons_of_mem _ (List.mem_cons_self _ _)) (Or.inl rfl)
  · rw [h.2.2.2.1]
    decide
